import Mathlib

/-!
Verification of the composer-rs package installer and autoload builder.

This file gives a shallow embedding of the program's data model and of the
functions the specification talks about:

* the lock-manifest data model of src/lock.rs and src/main.rs;
* the per-package install pipeline of src/main.rs
  (install_from_composer_lock, install_package, install_package_from_zip),
  with file-system and network effects abstracted into an oracle world and
  an explicit event trace, and a Rust panic modelled as a distinguished
  outcome;
* the classmap extraction of src/classmap.rs (get_classes_of_statements and
  generate_classmap) over an abstract statement tree and directory tree;
* the autoload index construction of src/autoload.rs
  (generate_composer_static), with the Rust HashMaps modelled as
  association lists ordered by insertion;
* the CLI command dispatch of main in src/main.rs.

Theorems about these definitions then settle the specification claims.
-/

set_option linter.unusedVariables false

namespace ComposerRs

/-- ComposerPackageSource of src/main.rs and src/lock.rs: a distribution
descriptor with a kind, a URL and a content reference. -/
structure ComposerPackageSource where
  source_type : String
  url : String
  reference : String
deriving DecidableEq, Repr

/-- ComposerAutoload of src/lock.rs: the autoload directives of one package.
The Rust psr0 and psr4 fields are HashMaps; they are modelled as association
lists in iteration order. -/
structure ComposerAutoload where
  files : Option (List String)
  psr0 : Option (List (String × String))
  psr4 : Option (List (String × String))
deriving DecidableEq, Repr

/-- ComposerPackage of src/lock.rs (the variant in src/main.rs lacks the
autoload field, which the installer does not read). -/
structure ComposerPackage where
  name : String
  version : String
  source : Option ComposerPackageSource
  dist : Option ComposerPackageSource
  package_type : Option String
  autoload : Option ComposerAutoload
deriving DecidableEq, Repr

/-- ComposerLock of src/lock.rs. -/
structure ComposerLock where
  packages : List ComposerPackage
  content_hash : String
deriving DecidableEq, Repr

/-! ## Association lists

The Rust code uses std HashMap with contains_key / get_mut / insert.  We
model a map as a list of key-value pairs: insert replaces the value in
place when the key is present and appends otherwise, which also records
insertion order (used to model iteration order where the code iterates). -/

/-- Lookup in an association list (HashMap::get). -/
def lookupA {α : Type} : List (String × α) → String → Option α
  | [], _ => none
  | (k, v) :: rest, key => if k = key then some v else lookupA rest key

/-- Insert into an association list (HashMap::insert): replace in place if
the key is present, else append. -/
def insertA {α : Type} : List (String × α) → String → α → List (String × α)
  | [], key, v => [(key, v)]
  | (k, w) :: rest, key, v =>
      if k = key then (k, v) :: rest else (k, w) :: insertA rest key v

/-- Two-level lookup, for the nested maps of the autoload indexes. -/
def lookupA₂ {α : Type} (m : List (String × List (String × α))) (k1 k2 : String) :
    Option α :=
  match lookupA m k1 with
  | none => none
  | some m2 => lookupA m2 k2

/-! ## Installer model (src/main.rs)

Effects of install_package_from_zip are recorded as an event trace; the
oracle world says whether the cache file exists and whether each external
operation succeeds.  Every failure in the Rust function goes through
expect, i.e. a panic, so a step failure aborts the trace with panicked. -/

/-- An observable effect of the zip install path. -/
inductive Ev where
  /-- Opening and reading the cached archive file with the given name. -/
  | readCacheFile (name : String)
  /-- A network fetch of the given URL. -/
  | fetch (url : String)
  /-- Recursive creation of the extraction directory. -/
  | createDir (path : String)
  /-- Extraction of the archive into the extraction directory. -/
  | extractArchive (path : String)
  /-- Persisting the archive bytes to the cache under the given name. -/
  | writeCacheFile (name : String)
deriving DecidableEq, Repr

/-- Oracle world for one zip install: cache presence and success of each
external operation. -/
structure ZipWorld where
  cacheExists : Bool
  openCachedOk : Bool
  readCachedOk : Bool
  fetchOk : Bool
  statusOk : Bool
  bodyOk : Bool
  createDirOk : Bool
  extractOk : Bool
  writeOk : Bool
deriving DecidableEq, Repr

/-- install_package_from_zip of src/main.rs, as the ordered trace of
attempted effects paired with true when the function returns Ok and false
when it panics (every error path in the source is an expect).  The cache
file name is reference followed by the zip extension, as in the source. -/
def install_package_from_zip (w : ZipWorld) (source : ComposerPackageSource)
    (extract : String) : List Ev × Bool :=
  let cacheFile := source.reference ++ ".zip"
  if w.cacheExists then
    if !w.openCachedOk then ([Ev.readCacheFile cacheFile], false)
    else if !w.readCachedOk then ([Ev.readCacheFile cacheFile], false)
    else if !w.createDirOk then
      ([Ev.readCacheFile cacheFile, Ev.createDir extract], false)
    else if !w.extractOk then
      ([Ev.readCacheFile cacheFile, Ev.createDir extract,
        Ev.extractArchive extract], false)
    else
      ([Ev.readCacheFile cacheFile, Ev.createDir extract,
        Ev.extractArchive extract], true)
  else
    if !w.fetchOk then ([Ev.fetch source.url], false)
    else if !w.statusOk then ([Ev.fetch source.url], false)
    else if !w.bodyOk then ([Ev.fetch source.url], false)
    else if !w.createDirOk then
      ([Ev.fetch source.url, Ev.createDir extract], false)
    else if !w.extractOk then
      ([Ev.fetch source.url, Ev.createDir extract, Ev.extractArchive extract], false)
    else if !w.writeOk then
      ([Ev.fetch source.url, Ev.createDir extract, Ev.extractArchive extract,
        Ev.writeCacheFile cacheFile], false)
    else
      ([Ev.fetch source.url, Ev.createDir extract, Ev.extractArchive extract,
        Ev.writeCacheFile cacheFile], true)

/-- Outcome of one spawned per-package task: Ok, a returned error (the
anyhow error of install_package), or a task panic (JoinError). -/
inductive TaskOutcome where
  | ok
  | err (msg : String)
  | panicked
deriving DecidableEq, Repr

/-- install_package of src/main.rs: dispatch on the descriptor kind.  Only
the zip kind is supported; any other kind returns the unsupported source
type error.  A panic inside the zip path surfaces as a task panic. -/
def install_package (w : ZipWorld) (source : ComposerPackageSource)
    (extract : String) : TaskOutcome :=
  if source.source_type = "zip" then
    if (install_package_from_zip w source extract).2 then TaskOutcome.ok
    else TaskOutcome.panicked
  else TaskOutcome.err ("Unsupported source type: " ++ source.source_type)

/-- Descriptor resolution in the spawn loop of install_from_composer_lock:
the Rust expression is dist.unwrap_or(source.unwrap()).  Rust evaluates the
unwrap_or argument eagerly, so source.unwrap() runs first and panics (none
here) whenever source is absent, even when dist is present; otherwise the
descriptor is dist when present, else source. -/
def resolveDescriptor (p : ComposerPackage) : Option ComposerPackageSource :=
  match p.source with
  | none => none
  | some s => some (p.dist.getD s)

/-- Whether the spawn loop skips the package: package_type is some and
equals the metapackage marker. -/
def isMetapackage (p : ComposerPackage) : Bool :=
  p.package_type = some "metapackage"

/-- Extraction directory of a package: vendor joined with the package name
under the working directory. -/
def extractDir (workingDirectory : String) (p : ComposerPackage) : String :=
  workingDirectory ++ "/vendor/" ++ p.name

/-- The spawn loop of install_from_composer_lock: skip metapackages,
resolve the descriptor (a panic here aborts the whole loop, giving none),
and collect one task outcome per spawned package, in manifest order.  The
world oracle is per package. -/
def spawnAll (env : ComposerPackage → ZipWorld) (workingDirectory : String) :
    List ComposerPackage → Option (List TaskOutcome)
  | [] => some []
  | p :: rest =>
      if isMetapackage p then spawnAll env workingDirectory rest
      else
        match resolveDescriptor p with
        | none => none
        | some src =>
            (spawnAll env workingDirectory rest).map
              (fun outs => install_package (env p) src
                (extractDir workingDirectory p) :: outs)

/-- Result of the whole install run. -/
inductive RunResult where
  /-- All tasks succeeded. -/
  | ok
  /-- A task returned an error; the message is the anyhow text built from
  the first observed task error. -/
  | errFailed (msg : String)
  /-- A task panicked; surfaced as the future-panicked error. -/
  | errPanicked
  /-- The run itself panicked in the spawn loop (unwrap on a missing
  source descriptor). -/
  | panickedInLoop
deriving DecidableEq, Repr

/-- The aggregation loop over join_all results in install_from_composer_lock:
skip Ok results and return on the first error or panic, in spawn order. -/
def aggregate : List TaskOutcome → RunResult
  | [] => RunResult.ok
  | TaskOutcome.ok :: rest => aggregate rest
  | TaskOutcome.err e :: _ =>
      RunResult.errFailed ("Future failed with error: " ++ e)
  | TaskOutcome.panicked :: _ => RunResult.errPanicked

/-- install_from_composer_lock of src/main.rs: spawn one task per
non-metapackage package, wait for all of them (join_all), then fold the
collected results, surfacing the first failure. -/
def install_from_composer_lock (env : ComposerPackage → ZipWorld)
    (workingDirectory : String) (lock : ComposerLock) : RunResult :=
  match spawnAll env workingDirectory lock.packages with
  | none => RunResult.panickedInLoop
  | some outs => aggregate outs

/-- Formalisation of the claim wording that a run fails with an error
identifying a package by name: the run result is a returned error whose
message contains the package name as a substring. -/
def failsWithErrorNaming (r : RunResult) (name : String) : Bool :=
  match r with
  | RunResult.errFailed m => decide (List.IsInfix name.toList m.toList)
  | _ => false

/-! ## Classmap model (src/classmap.rs)

The external source analyzer's statement tree is modelled as a closed
variant with the four shapes get_classes_of_statements distinguishes:
class declarations, braced namespaces (optional name), unbraced namespaces
(whose following statements the parser groups under them), and everything
else. -/

/-- A statement of the parsed tree, as matched by get_classes_of_statements. -/
inductive Stmt where
  | classDecl (name : String)
  | bracedNs (name : Option String) (body : List Stmt)
  | unbracedNs (name : String) (stmts : List Stmt)
  | other
deriving Repr

mutual
/-- The per-statement step of the loop body of get_classes_of_statements
in src/classmap.rs: a class declaration contributes the current namespace
text followed by the class name; a braced namespace with a name scans its
body under the extended text with a trailing backslash, an unnamed braced
namespace scans its body unchanged, an unbraced namespace scans its
grouped statements under the extended text, and any other statement
contributes nothing. -/
def classesOfStmt : Stmt → String → List String
  | Stmt.classDecl n, pfx => [pfx ++ n]
  | Stmt.bracedNs (some n) body, pfx => classesOfList body (pfx ++ n ++ "\\")
  | Stmt.bracedNs none body, pfx => classesOfList body pfx
  | Stmt.unbracedNs n stmts, pfx => classesOfList stmts (pfx ++ n ++ "\\")
  | Stmt.other, _ => []

/-- The statement loop of get_classes_of_statements, concatenating the
contributions of the statements in order. -/
def classesOfList : List Stmt → String → List String
  | [], _ => []
  | s :: rest, pfx => classesOfStmt s pfx ++ classesOfList rest pfx
end

/-- get_classes_of_statements of src/classmap.rs. -/
def get_classes_of_statements (statements : List Stmt) (pfx : String) :
    List String :=
  classesOfList statements pfx

/-- String startsWith, written over the character lists so that concrete
instances evaluate. -/
def strStartsWith (s pre : String) : Bool := pre.data.isPrefixOf s.data

/-- String endsWith, written over the character lists so that concrete
instances evaluate. -/
def strEndsWith (s suf : String) : Bool := suf.data.isSuffixOf s.data

/-- A node of the on-disk tree under a scan directory.  A file carries the
parse result of its content: some statements on success, none for a parse
error. -/
inductive FsNode where
  | file (name : String) (parsed : Option (List Stmt))
  | dir (name : String) (entries : List FsNode)
deriving Repr

mutual
/-- One node of the filtered walk of generate_classmap: entries whose name
starts with a dot and entries named node_modules are skipped together with
their subtree; remaining entries are yielded when their path ends in .php
or .inc (a yielded directory is marked none, since reading it as a file
panics), and remaining directories are descended either way. -/
def walkNode : FsNode → String → List (String × Option (Option (List Stmt)))
  | FsNode.file name parsed, parent =>
      let path := parent ++ "/" ++ name
      if strStartsWith name "." then []
      else if name = "node_modules" then []
      else if strEndsWith path ".php" || strEndsWith path ".inc" then
        [(path, some parsed)]
      else []
  | FsNode.dir name entries, parent =>
      let path := parent ++ "/" ++ name
      if strStartsWith name "." then []
      else if name = "node_modules" then []
      else
        (if strEndsWith path ".php" || strEndsWith path ".inc" then
          [(path, none)] else []) ++
          walkList entries path

/-- Filtered walk of a list of sibling nodes, in order. -/
def walkList : List FsNode → String → List (String × Option (Option (List Stmt)))
  | [], _ => []
  | n :: rest, parent => walkNode n parent ++ walkList rest parent
end

/-- What the file system holds at the scan path generate_classmap joins. -/
inductive FsEntry where
  | file (parsed : Option (List Stmt))
  | dir (entries : List FsNode)

/-- Abstract file system: resolves the scan path. -/
structure FS where
  find : String → Option FsEntry

/-- Path::strip_prefix of the package directory, for paths of the form
root followed by a separator and a relative part. -/
def stripPathPrefix (root path : String) : String :=
  path.drop (root.length + 1)

/-- The per-file insertion loop of generate_classmap: each extracted class
name is inserted into the map, mapped to the file's relative path (later
files overwrite earlier ones on a duplicate name). -/
def insertClasses (m : List (String × String)) (names : List String)
    (rel : String) : List (String × String) :=
  names.foldl (fun acc n => insertA acc n rel) m

/-- The walk-and-parse loop of generate_classmap over the yielded entries:
a yielded directory makes the read panic (none); a file that parses
contributes its classes under its relative path; a parse failure is logged
and contributes nothing. -/
def processItems (package_directory : String) (m : List (String × String)) :
    List (String × Option (Option (List Stmt))) →
      Option (Except String (List (String × String)))
  | [] => some (Except.ok m)
  | (_, none) :: _ => none
  | (path, some parsed) :: rest =>
      let relative_path := stripPathPrefix package_directory path
      match parsed with
      | some stmts =>
          processItems package_directory
            (insertClasses m (get_classes_of_statements stmts "") relative_path) rest
      | none => processItems package_directory m rest

/-- generate_classmap of src/classmap.rs: join the scan path, return the
empty map when it does not exist, handle a single file directly, and
otherwise walk the directory.  The outer Option is none on a panic; the
Except layer preserves the Result type of the source (its error path only
fires on a walk IO fault, which the abstract tree cannot produce).  The
exclude_directories argument is mapped onto the package directory as in
the source, where the resulting scoped excludes are left unused because
the filtering line is commented out. -/
def generate_classmap (fs : FS) (package_directory class_map_directory : String)
    (exclude_directories : List String) :
    Option (Except String (List (String × String))) :=
  let scoped_excludes :=
    exclude_directories.map (fun d => package_directory ++ "/" ++ d)
  let scan_directory := package_directory ++ "/" ++ class_map_directory
  match fs.find scan_directory with
  | none => some (Except.ok [])
  | some (FsEntry.file parsed) =>
      let relative_path := stripPathPrefix package_directory scan_directory
      match parsed with
      | some stmts =>
          some (Except.ok
            (insertClasses [] (get_classes_of_statements stmts "") relative_path))
      | none => some (Except.ok [])
  | some (FsEntry.dir entries) =>
      processItems package_directory [] (walkList entries scan_directory)

/-! ## Autoload index model (src/autoload.rs)

generate_composer_static builds four structures from the manifest's
autoload directives.  The Rust HashMaps are modelled as association lists
(insertA replaces in place, appends otherwise); the Rust field psr4_prefix
is named psr4Lengths here.  chars().next().unwrap() on a namespace key is
a panic when the key is empty, modelled by the Option layer; the xxh3_64
file hash is an external function, taken as a parameter. -/

/-- The four index structures of the static autoload template. -/
structure StaticIndexes where
  files : List (String × String)
  psr0 : List (String × List (String × List (String × Nat)))
  psr4 : List (String × List String)
  psr4Lengths : List (String × List (String × Nat))
deriving DecidableEq, Repr

/-- Initial empty indexes. -/
def emptyStatic : StaticIndexes :=
  { files := [], psr0 := [], psr4 := [], psr4Lengths := [] }

/-- The psr0 bucket update of src/autoload.rs lines 115 to 133: bucket by
first character, then by the namespace key, then record the path with
marker 1 (contains_key and get_mut on a HashMap are modelled by lookup and
in-place insert). -/
def recordPsr0 (B : List (String × List (String × List (String × Nat))))
    (flc ns path_to_directory : String) :
    List (String × List (String × List (String × Nat))) :=
  match lookupA B flc with
  | some first_letter_map =>
      match lookupA first_letter_map ns with
      | some paths =>
          insertA B flc (insertA first_letter_map ns
            (insertA paths path_to_directory 1))
      | none =>
          insertA B flc (insertA first_letter_map ns [(path_to_directory, 1)])
  | none => insertA B flc [(ns, [(path_to_directory, 1)])]

/-- The psr4 path update of src/autoload.rs lines 142 to 146: push onto
the existing list of the namespace key, or insert a fresh one-element
list. -/
def appendPath (P : List (String × List String)) (ns path_to_directory : String) :
    List (String × List String) :=
  match lookupA P ns with
  | some paths => insertA P ns (paths ++ [path_to_directory])
  | none => insertA P ns [path_to_directory]

/-- The psr4 length update of src/autoload.rs lines 148 to 154: under the
bucket of the key's first character, record the key's length. -/
def recordLength (L : List (String × List (String × Nat)))
    (flc ns : String) (bs : Nat) : List (String × List (String × Nat)) :=
  match lookupA L flc with
  | some m => insertA L flc (insertA m ns bs)
  | none => insertA L flc [(ns, bs)]

/-- One psr0 entry of one package (src/autoload.rs lines 111 to 134);
panics (none) when the namespace key is empty. -/
def processPsr0Entry (pkgName : String) (st : StaticIndexes)
    (e : String × String) : Option StaticIndexes :=
  let ns := e.1
  let path_to_directory := pkgName ++ "/" ++ e.2
  match ns.data.head? with
  | none => none
  | some first_letter =>
      some { st with
        psr0 := recordPsr0 st.psr0 first_letter.toString ns path_to_directory }

/-- One psr4 entry of one package (src/autoload.rs lines 138 to 155):
append the package-qualified path to the list of the namespace key, and
record the key's byte length (the Rust len method counts UTF-8 bytes)
under the bucket of its first character; panics (none) when the namespace
key is empty. -/
def processPsr4Entry (pkgName : String) (st : StaticIndexes)
    (e : String × String) : Option StaticIndexes :=
  let ns := e.1
  let path_to_directory := pkgName ++ "/" ++ e.2
  match ns.data.head? with
  | none => none
  | some first_letter =>
      some { st with
        psr4 := appendPath st.psr4 ns path_to_directory,
        psr4Lengths :=
          recordLength st.psr4Lengths first_letter.toString ns ns.utf8ByteSize }

/-- Left fold of a panic-capable step over a list of map entries. -/
def processEntries {σ : Type} (f : σ → String × String → Option σ) :
    σ → List (String × String) → Option σ
  | st, [] => some st
  | st, e :: rest =>
      match f st e with
      | none => none
      | some st2 => processEntries f st2 rest

/-- The files step of one package (src/autoload.rs lines 104 to 108):
insert the hash of each declared file, mapped to its package-qualified
path. -/
def processFiles (hash : String → Nat) (pkgName : String)
    (st : StaticIndexes) (fls : Option (List String)) : StaticIndexes :=
  match fls with
  | none => st
  | some fls =>
      { st with
        files := fls.foldl
          (fun m f => insertA m (toString (hash f)) (pkgName ++ "/" ++ f))
          st.files }

/-- The per-package body of the loop in generate_composer_static: files
entries are hashed and inserted, then psr0 entries, then psr4 entries.
A package without autoload directives contributes nothing. -/
def processPackage (hash : String → Nat) (st : StaticIndexes)
    (p : ComposerPackage) : Option StaticIndexes :=
  match p.autoload with
  | none => some st
  | some al =>
      match processEntries (processPsr0Entry p.name)
          (processFiles hash p.name st al.files) (al.psr0.getD []) with
      | none => none
      | some st2 => processEntries (processPsr4Entry p.name) st2 (al.psr4.getD [])

/-- The package loop of generate_composer_static, in manifest order. -/
def processPackages (hash : String → Nat) :
    StaticIndexes → List ComposerPackage → Option StaticIndexes
  | st, [] => some st
  | st, p :: rest =>
      match processPackage hash st p with
      | none => none
      | some st2 => processPackages hash st2 rest

/-- generate_composer_static of src/autoload.rs, restricted to the index
construction it hands to the template: fold every package of the lock over
the empty indexes; none models the panic on an empty namespace key. -/
def generate_composer_static (hash : String → Nat) (lock : ComposerLock) :
    Option StaticIndexes :=
  processPackages hash emptyStatic lock.packages

/-! ## CLI dispatch model (src/main.rs, main) -/

/-- The two subcommands of the CLI. -/
inductive CliCommand where
  | install
  | clearCache
deriving DecidableEq, Repr

/-- An observable action of main's dispatch.  The removeDirAll constructor
is the vocabulary for deleting a directory tree, so that the absence of
any deletion in a branch is expressible. -/
inductive MainEffect where
  | runInstall (workingDirectory cacheDirectory : String)
  | printLine (s : String)
  | removeDirAll (path : String)
deriving DecidableEq, Repr

/-- The command match of main (src/main.rs lines 79 to 97): install runs
the pipeline with the resolved directories, the clear-cache branch only
prints, and a missing command only prints. -/
def mainDispatch : Option CliCommand → String → String → List MainEffect
  | some CliCommand.install, wd, cd => [MainEffect.runInstall wd cd]
  | some CliCommand.clearCache, _, _ => [MainEffect.printLine "Clearing cache"]
  | none, _, _ => [MainEffect.printLine "No command passed"]

/-! ## Concrete fixtures and derived predicates used by the theorems -/

/-- A world where the cache is cold and every operation succeeds. -/
def defaultZipWorld : ZipWorld :=
  { cacheExists := false, openCachedOk := true, readCachedOk := true,
    fetchOk := true, statusOk := true, bodyOk := true,
    createDirOk := true, extractOk := true, writeOk := true }

/-- A world with a warm cache and every operation succeeding. -/
def hitWorld : ZipWorld := { defaultZipWorld with cacheExists := true }

/-- A cold-cache world where extraction fails. -/
def extractFailWorld : ZipWorld := { defaultZipWorld with extractOk := false }

/-- A zip descriptor. -/
def srcZip : ComposerPackageSource :=
  { source_type := "zip", url := "https://example/widget.zip", reference := "abc123" }

/-- A descriptor of an unsupported kind. -/
def srcTar : ComposerPackageSource :=
  { source_type := "tar", url := "https://example/widget.tar", reference := "abc123" }

/-- A package installable from a zip descriptor. -/
def pkgZip : ComposerPackage :=
  { name := "acme/widget", version := "1.0.0", source := some srcZip,
    dist := some srcZip, package_type := none, autoload := none }

/-- A package whose descriptor has an unsupported kind. -/
def pkgTar : ComposerPackage :=
  { name := "acme/tarball", version := "1.0.0", source := some srcTar,
    dist := some srcTar, package_type := none, autoload := none }

/-- A non-metapackage package with neither source nor dist. -/
def pkgMissingBoth : ComposerPackage :=
  { name := "acme/foo", version := "1.0.0", source := none, dist := none,
    package_type := none, autoload := none }

/-- A metapackage with neither source nor dist. -/
def pkgMetaOnly : ComposerPackage :=
  { name := "acme/meta", version := "1.0.0", source := none, dist := none,
    package_type := some "metapackage", autoload := none }

/-- A lock whose single package lacks both descriptors. -/
def lockMissingBoth : ComposerLock :=
  { packages := [pkgMissingBoth], content_hash := "h" }

/-- A lock holding only a metapackage without descriptors. -/
def lockMetaOnly : ComposerLock :=
  { packages := [pkgMetaOnly], content_hash := "h" }

/-- A lock mixing a zip package, an unsupported-kind package and a
metapackage. -/
def lockMixed : ComposerLock :=
  { packages := [pkgZip, pkgTar, pkgMetaOnly], content_hash := "h" }

/-- A package with only a psr4 directive. -/
def pkgPsr4 (name ns path : String) : ComposerPackage :=
  { name := name, version := "1.0.0", source := none, dist := none,
    package_type := none,
    autoload := some { files := none, psr0 := none, psr4 := some [(ns, path)] } }

/-- Two packages declaring the same psr4 namespace key with different paths. -/
def lockTwoApp : ComposerLock :=
  { packages := [pkgPsr4 "p1" "App\\" "src/", pkgPsr4 "p2" "App\\" "lib/"],
    content_hash := "h" }

/-- One package whose psr4 namespace key holds a two-byte character. -/
def lockUmlaut : ComposerLock :=
  { packages := [pkgPsr4 "p1" "Ä\\" "src/"], content_hash := "h" }

/-- One package whose psr4 namespace key is the empty string. -/
def lockEmptyNs : ComposerLock :=
  { packages := [pkgPsr4 "p1" "" "src/"], content_hash := "h" }

/-- A file system holding one file with an unbraced namespace and a class. -/
def fsUnbracedExample : FS :=
  { find := fun p =>
      if p = "pkg/src/A.php" then
        some (FsEntry.file (some [Stmt.unbracedNs "Foo" [Stmt.classDecl "Bar"]]))
      else none }

/-- A file system holding one file with two braced namespaces, each with a
class. -/
def fsBracedExample : FS :=
  { find := fun p =>
      if p = "pkg/src/B.php" then
        some (FsEntry.file (some
          [Stmt.bracedNs (some "Foo") [Stmt.classDecl "Bar"],
           Stmt.bracedNs (some "Baz") [Stmt.classDecl "Qux"]]))
      else none }

/-- An index state already holding one base path for the App namespace
key. -/
def stPreApp : StaticIndexes :=
  { emptyStatic with psr4 := [("App\\", ["p1/src/"])] }

/-- Every value recorded in the two-level length index equals the UTF-8
byte length of its namespace key. -/
def LengthsWF (L : List (String × List (String × Nat))) : Prop :=
  ∀ fl ns n, lookupA₂ L fl ns = some n → n = ns.utf8ByteSize

/-! ## Helper lemmas -/

theorem lookupA_insertA_self {α : Type} (m : List (String × α)) (k : String) (v : α) :
    lookupA (insertA m k v) k = some v := by
  induction m with
  | nil => simp [insertA, lookupA]
  | cons hd tl ih =>
    obtain ⟨k0, v0⟩ := hd
    by_cases h : k0 = k
    · simp [insertA, lookupA, h]
    · simp [insertA, lookupA, h, ih]

theorem lookupA_insertA_other {α : Type} (m : List (String × α)) (k k' : String)
    (v : α) (h : k' ≠ k) : lookupA (insertA m k v) k' = lookupA m k' := by
  have hne : k ≠ k' := fun hk => h hk.symm
  induction m with
  | nil => simp [insertA, lookupA, hne]
  | cons hd tl ih =>
    obtain ⟨k0, v0⟩ := hd
    by_cases h0 : k0 = k
    · subst h0
      simp [insertA, lookupA, hne]
    · simp [insertA, lookupA, h0, ih]

theorem string_data_head_none (s : String) (h : s = "") : s.data.head? = none := by
  subst h; rfl

theorem string_data_head_some (s : String) (h : s ≠ "") :
    ∃ c, s.data.head? = some c := by
  cases hs : s.data with
  | nil =>
    exact absurd (String.ext (by simpa using hs)) h
  | cons c cs => exact ⟨c, by simp [hs]⟩

/-! ## Claim theorems -/

/-- C5: for every package directory and relative scan path, if the scan
path does not exist on the abstract file system then generate_classmap
returns the empty class index wrapped in a success result, not an error. -/
theorem generate_classmap_missing_scan_path (fs : FS)
    (package_directory class_map_directory : String)
    (exclude_directories : List String)
    (h : fs.find (package_directory ++ "/" ++ class_map_directory) = none) :
    generate_classmap fs package_directory class_map_directory
      exclude_directories = some (Except.ok []) := by
  simp [generate_classmap, h]

/-- Witness for the missing scan path claim: a file system holding
nothing, scanned at pkg/src. -/
theorem generate_classmap_missing_scan_path_witness :
    (FS.mk (fun _ => none)).find ("pkg" ++ "/" ++ "src") = none ∧
      generate_classmap (FS.mk (fun _ => none)) "pkg" "src" ["vendor"] =
        some (Except.ok []) :=
  ⟨rfl, generate_classmap_missing_scan_path (FS.mk (fun _ => none)) "pkg" "src"
    ["vendor"] rfl⟩

/-- C8: generate_classmap is insensitive to the exclude-directories
argument: for every file system, package directory, scan path and any two
exclude lists it returns the same result, because the scoped excludes the
source computes are never consulted (the filtering line is commented out). -/
theorem generate_classmap_ignores_excludes (fs : FS)
    (package_directory class_map_directory : String)
    (ex1 ex2 : List String) :
    generate_classmap fs package_directory class_map_directory ex1 =
      generate_classmap fs package_directory class_map_directory ex2 := rfl

/-- C4: the classmap extraction maps each class declaration to the current
namespace text followed by the class name: a named braced namespace block
scans its body with the name and a trailing separator appended, an
unbraced namespace scans its grouped statements under the new text, an
unnamed braced block scans its body unchanged, and any other statement
contributes nothing and changes nothing; the two spec examples yield
Foo\Bar (and Baz\Qux) mapped to the file's relative path. -/
theorem classmap_extraction_spec :
    (∀ pfx n rest, get_classes_of_statements (Stmt.classDecl n :: rest) pfx =
        (pfx ++ n) :: get_classes_of_statements rest pfx) ∧
    (∀ pfx n body rest,
        get_classes_of_statements (Stmt.bracedNs (some n) body :: rest) pfx =
          get_classes_of_statements body (pfx ++ n ++ "\\") ++
            get_classes_of_statements rest pfx) ∧
    (∀ pfx body rest,
        get_classes_of_statements (Stmt.bracedNs none body :: rest) pfx =
          get_classes_of_statements body pfx ++
            get_classes_of_statements rest pfx) ∧
    (∀ pfx n stmts rest,
        get_classes_of_statements (Stmt.unbracedNs n stmts :: rest) pfx =
          get_classes_of_statements stmts (pfx ++ n ++ "\\") ++
            get_classes_of_statements rest pfx) ∧
    (∀ pfx rest, get_classes_of_statements (Stmt.other :: rest) pfx =
        get_classes_of_statements rest pfx) ∧
    get_classes_of_statements [Stmt.unbracedNs "Foo" [Stmt.classDecl "Bar"]] "" =
      ["Foo\\Bar"] ∧
    generate_classmap fsUnbracedExample "pkg" "src/A.php" [] =
      some (Except.ok [("Foo\\Bar", "src/A.php")]) ∧
    generate_classmap fsBracedExample "pkg" "src/B.php" [] =
      some (Except.ok [("Foo\\Bar", "src/B.php"), ("Baz\\Qux", "src/B.php")]) :=
  ⟨fun _ _ _ => rfl, fun _ _ _ _ => rfl, fun _ _ _ => rfl, fun _ _ _ _ => rfl,
    fun _ _ => rfl, rfl, rfl, rfl⟩

/-- Spawning panics whenever a non-metapackage without a source descriptor
is in the list: the unwrap_or argument is evaluated eagerly, so
source.unwrap() runs for every spawned package. -/
theorem spawnAll_none_of_missing_source (env : ComposerPackage → ZipWorld)
    (wd : String) (p : ComposerPackage)
    (hmeta : isMetapackage p = false) (hsrc : p.source = none) :
    ∀ pkgs, p ∈ pkgs → spawnAll env wd pkgs = none := by
  intro pkgs hp
  induction pkgs with
  | nil => cases hp
  | cons q rest ih =>
    rcases List.mem_cons.mp hp with h | h
    · subst h
      simp [spawnAll, hmeta, resolveDescriptor, hsrc]
    · by_cases hq : isMetapackage q
      · simp [spawnAll, hq, ih h]
      · simp only [spawnAll, hq, if_neg, Bool.not_eq_true]
        cases hr : resolveDescriptor q with
        | none => simp [hq, hr]
        | some s => simp [hq, hr, ih h]

/-- A list of metapackages spawns no tasks. -/
theorem spawnAll_all_meta (env : ComposerPackage → ZipWorld) (wd : String) :
    ∀ pkgs, (∀ p ∈ pkgs, isMetapackage p = true) →
      spawnAll env wd pkgs = some [] := by
  intro pkgs h
  induction pkgs with
  | nil => rfl
  | cons q rest ih =>
    have hq := h q (List.mem_cons_self q rest)
    simp only [spawnAll, hq, if_pos]
    exact ih fun p hp => h p (List.mem_cons_of_mem q hp)

/-- C1 (amended): a non-metapackage package lacking both descriptors makes
the whole run panic in the spawn loop (an unwrap on none), producing no
error value at all; packages of kind metapackage are skipped, so a
manifest of metapackages without descriptors installs successfully. -/
theorem install_missing_descriptor_panics :
    (∀ env workingDirectory lock p, p ∈ lock.packages →
        isMetapackage p = false → p.source = none → p.dist = none →
        install_from_composer_lock env workingDirectory lock =
          RunResult.panickedInLoop) ∧
    (∀ env workingDirectory lock,
        (∀ p ∈ lock.packages, isMetapackage p = true) →
        install_from_composer_lock env workingDirectory lock = RunResult.ok) := by
  constructor
  · intro env wd lock p hp hmeta hsrc _
    have h := spawnAll_none_of_missing_source env wd p hmeta hsrc lock.packages hp
    simp [install_from_composer_lock, h]
  · intro env wd lock h
    have hs := spawnAll_all_meta env wd lock.packages h
    simp [install_from_composer_lock, hs, aggregate]

/-- Witness for the amended C1 theorem at a concrete one-package lock and
a concrete metapackage-only lock. -/
theorem install_missing_descriptor_panics_witness :
    pkgMissingBoth ∈ lockMissingBoth.packages ∧
      isMetapackage pkgMissingBoth = false ∧
      pkgMissingBoth.source = none ∧ pkgMissingBoth.dist = none ∧
      install_from_composer_lock (fun _ => defaultZipWorld) "wd" lockMissingBoth =
        RunResult.panickedInLoop ∧
      install_from_composer_lock (fun _ => defaultZipWorld) "wd" lockMetaOnly =
        RunResult.ok :=
  ⟨by simp [lockMissingBoth], rfl, rfl, rfl,
    install_missing_descriptor_panics.1 (fun _ => defaultZipWorld) "wd"
      lockMissingBoth pkgMissingBoth (by simp [lockMissingBoth]) rfl rfl rfl,
    install_missing_descriptor_panics.2 (fun _ => defaultZipWorld) "wd"
      lockMetaOnly (by
        intro p hp
        simp [lockMetaOnly] at hp
        subst hp
        rfl)⟩

/-- C1 counterexample to the claim as stated: for the concrete lock whose
single non-metapackage package has neither source nor dist, the run ends
in a spawn-loop panic, not in an error value, so no error naming the
package is produced. -/
theorem install_missing_descriptor_counterexample :
    install_from_composer_lock (fun _ => defaultZipWorld) "wd" lockMissingBoth =
        RunResult.panickedInLoop ∧
      failsWithErrorNaming
        (install_from_composer_lock (fun _ => defaultZipWorld) "wd" lockMissingBoth)
        "acme/foo" = false :=
  ⟨rfl, rfl⟩

/-- The aggregation loop reports success exactly when every task outcome
is Ok. -/
theorem aggregate_ok_iff (outs : List TaskOutcome) :
    aggregate outs = RunResult.ok ↔ ∀ o ∈ outs, o = TaskOutcome.ok := by
  induction outs with
  | nil => simp [aggregate]
  | cons o rest ih =>
    cases o with
    | ok => simp [aggregate, ih]
    | err e => simp [aggregate]
    | panicked => simp [aggregate]

/-- The aggregation loop surfaces the first task error, in spawn order. -/
theorem aggregate_first_err (pre : List TaskOutcome) (e : String)
    (rest : List TaskOutcome) (h : ∀ o ∈ pre, o = TaskOutcome.ok) :
    aggregate (pre ++ TaskOutcome.err e :: rest) =
      RunResult.errFailed ("Future failed with error: " ++ e) := by
  induction pre with
  | nil => rfl
  | cons o p ih =>
    have ho := h o (List.mem_cons_self o p)
    subst ho
    simp only [List.cons_append, aggregate]
    exact ih fun o' ho' => h o' (List.mem_cons_of_mem _ ho')

/-- When the spawn loop completes, it has spawned exactly one task per
non-metapackage package, whatever the later outcomes are. -/
theorem spawnAll_length (env : ComposerPackage → ZipWorld) (wd : String) :
    ∀ pkgs outs, spawnAll env wd pkgs = some outs →
      outs.length = (pkgs.filter fun p => !isMetapackage p).length := by
  intro pkgs
  induction pkgs with
  | nil =>
    intro outs h
    simp only [spawnAll] at h
    cases h
    rfl
  | cons q rest ih =>
    intro outs h
    by_cases hq : isMetapackage q
    · simp only [spawnAll, hq, if_pos] at h
      simp [List.filter_cons, hq, ih outs h]
    · simp only [spawnAll, hq, if_neg, Bool.not_eq_true] at h
      cases hr : resolveDescriptor q with
      | none =>
        rw [hr] at h
        cases h
      | some s =>
        rw [hr] at h
        cases hs : spawnAll env wd rest with
        | none => rw [hs] at h; cases h
        | some outs0 =>
          rw [hs] at h
          injection h with h2
          subst h2
          simp [List.filter_cons, hq, ih outs0 hs]

/-- C2: a per-package task whose resolved descriptor kind is not zip fails
with the unsupported source type error naming that kind; the spawn loop
produces one completed outcome per installable package before any
aggregation happens; the first observed failure is surfaced as the run
error; and the run reports success exactly when every task succeeded. -/
theorem install_unsupported_kind_and_aggregation :
    (∀ w src ext, src.source_type ≠ "zip" →
        install_package w src ext =
          TaskOutcome.err ("Unsupported source type: " ++ src.source_type)) ∧
    (∀ env wd pkgs outs, spawnAll env wd pkgs = some outs →
        outs.length = (pkgs.filter fun p => !isMetapackage p).length) ∧
    (∀ pre e rest, (∀ o ∈ pre, o = TaskOutcome.ok) →
        aggregate (pre ++ TaskOutcome.err e :: rest) =
          RunResult.errFailed ("Future failed with error: " ++ e)) ∧
    (∀ env wd lock outs, spawnAll env wd lock.packages = some outs →
        (install_from_composer_lock env wd lock = RunResult.ok ↔
          ∀ o ∈ outs, o = TaskOutcome.ok)) := by
  refine ⟨?_, ?_, ?_, ?_⟩
  · intro w src ext h
    simp [install_package, h]
  · exact spawnAll_length
  · exact aggregate_first_err
  · intro env wd lock outs h
    simp [install_from_composer_lock, h, aggregate_ok_iff]

/-- Witness for C2 at a concrete three-package manifest: one zip package,
one package of kind tar, one metapackage. -/
theorem install_unsupported_kind_and_aggregation_witness :
    srcTar.source_type ≠ "zip" ∧
    install_package defaultZipWorld srcTar "v" =
      TaskOutcome.err ("Unsupported source type: " ++ srcTar.source_type) ∧
    spawnAll (fun _ => defaultZipWorld) "wd" lockMixed.packages =
      some [TaskOutcome.ok, TaskOutcome.err "Unsupported source type: tar"] ∧
    ([TaskOutcome.ok, TaskOutcome.err "Unsupported source type: tar"] :
        List TaskOutcome).length =
      (lockMixed.packages.filter fun p => !isMetapackage p).length ∧
    aggregate ([TaskOutcome.ok] ++ TaskOutcome.err "boom" :: [TaskOutcome.panicked]) =
      RunResult.errFailed ("Future failed with error: " ++ "boom") ∧
    (install_from_composer_lock (fun _ => defaultZipWorld) "wd" lockMixed =
        RunResult.ok ↔
      ∀ o ∈ ([TaskOutcome.ok, TaskOutcome.err "Unsupported source type: tar"] :
          List TaskOutcome), o = TaskOutcome.ok) :=
  ⟨by decide,
    install_unsupported_kind_and_aggregation.1 defaultZipWorld srcTar "v" (by decide),
    rfl,
    install_unsupported_kind_and_aggregation.2.1 (fun _ => defaultZipWorld) "wd"
      lockMixed.packages
      [TaskOutcome.ok, TaskOutcome.err "Unsupported source type: tar"] rfl,
    install_unsupported_kind_and_aggregation.2.2.1 [TaskOutcome.ok] "boom"
      [TaskOutcome.panicked] (by decide),
    install_unsupported_kind_and_aggregation.2.2.2 (fun _ => defaultZipWorld) "wd"
      lockMixed [TaskOutcome.ok, TaskOutcome.err "Unsupported source type: tar"] rfl⟩

/-- C3: on a warm cache the archive bytes are read from the cache entry
named after the reference, no fetch happens and the cache entry is not
rewritten; on a cold cache the bytes are fetched from the descriptor URL,
the destination is created, the archive extracted, and the cache entry is
written only after a successful extraction (never when extraction fails). -/
theorem zip_cache_discipline :
    (∀ w src ext, w.cacheExists = true →
        Ev.readCacheFile (src.reference ++ ".zip") ∈
            (install_package_from_zip w src ext).1 ∧
          (∀ u, Ev.fetch u ∉ (install_package_from_zip w src ext).1) ∧
          (∀ f, Ev.writeCacheFile f ∉ (install_package_from_zip w src ext).1)) ∧
    (∀ w src ext, w.cacheExists = false → w.fetchOk = true → w.statusOk = true →
        w.bodyOk = true → w.createDirOk = true → w.extractOk = true →
        w.writeOk = true →
        (install_package_from_zip w src ext).1 =
          [Ev.fetch src.url, Ev.createDir ext, Ev.extractArchive ext,
            Ev.writeCacheFile (src.reference ++ ".zip")]) ∧
    (∀ w src ext, w.cacheExists = false → w.extractOk = false →
        ∀ f, Ev.writeCacheFile f ∉ (install_package_from_zip w src ext).1) := by
  refine ⟨?_, ?_, ?_⟩
  · rintro ⟨ce, oo, ro, fo, so, bo, cdo, eo, wo⟩ src ext h
    cases h
    cases oo <;> cases ro <;> cases cdo <;> cases eo <;>
      simp [install_package_from_zip]
  · rintro ⟨ce, oo, ro, fo, so, bo, cdo, eo, wo⟩ src ext h1 h2 h3 h4 h5 h6 h7
    cases h1; cases h2; cases h3; cases h4; cases h5; cases h6; cases h7
    rfl
  · rintro ⟨ce, oo, ro, fo, so, bo, cdo, eo, wo⟩ src ext h1 h2
    cases h1; cases h2
    intro f
    cases fo <;> cases so <;> cases bo <;> cases cdo <;>
      simp [install_package_from_zip]

/-- Witness for C3 at concrete worlds: warm cache, cold cache with all
operations succeeding, and cold cache with failing extraction. -/
theorem zip_cache_discipline_witness :
    hitWorld.cacheExists = true ∧
    Ev.readCacheFile (srcZip.reference ++ ".zip") ∈
        (install_package_from_zip hitWorld srcZip "v").1 ∧
    Ev.fetch srcZip.url ∉ (install_package_from_zip hitWorld srcZip "v").1 ∧
    Ev.writeCacheFile (srcZip.reference ++ ".zip") ∉
        (install_package_from_zip hitWorld srcZip "v").1 ∧
    (install_package_from_zip defaultZipWorld srcZip "v").1 =
      [Ev.fetch srcZip.url, Ev.createDir "v", Ev.extractArchive "v",
        Ev.writeCacheFile (srcZip.reference ++ ".zip")] ∧
    Ev.writeCacheFile (srcZip.reference ++ ".zip") ∉
      (install_package_from_zip extractFailWorld srcZip "v").1 :=
  ⟨rfl,
    (zip_cache_discipline.1 hitWorld srcZip "v" rfl).1,
    (zip_cache_discipline.1 hitWorld srcZip "v" rfl).2.1 srcZip.url,
    (zip_cache_discipline.1 hitWorld srcZip "v" rfl).2.2 (srcZip.reference ++ ".zip"),
    zip_cache_discipline.2.1 defaultZipWorld srcZip "v" rfl rfl rfl rfl rfl rfl rfl,
    zip_cache_discipline.2.2 extractFailWorld srcZip "v" rfl rfl
      (srcZip.reference ++ ".zip")⟩

/-- C6: a psr4 entry appends the package-qualified base path to the list
already recorded for its namespace key (starting a fresh one-element list
when the key is new), so packages declaring the same key accumulate their
base paths in manifest order; at the concrete two-package manifest both
declaring the App key, the list holds both paths in declaration order. -/
theorem psr4_paths_accumulation :
    (∀ pkgName st ns path c l, ns.data.head? = some c →
        lookupA st.psr4 ns = some l →
        (processPsr4Entry pkgName st (ns, path)).map
            (fun st' => lookupA st'.psr4 ns) =
          some (some (l ++ [pkgName ++ "/" ++ path]))) ∧
    (∀ pkgName st ns path c, ns.data.head? = some c →
        lookupA st.psr4 ns = none →
        (processPsr4Entry pkgName st (ns, path)).map
            (fun st' => lookupA st'.psr4 ns) =
          some (some [pkgName ++ "/" ++ path])) ∧
    (generate_composer_static (fun _ => 0) lockTwoApp).map
        (fun st => lookupA st.psr4 "App\\") =
      some (some ["p1/src/", "p2/lib/"]) := by
  refine ⟨?_, ?_, rfl⟩
  · intro pkgName st ns path c l hc hl
    simp [processPsr4Entry, appendPath, hc, hl, lookupA_insertA_self]
  · intro pkgName st ns path c hc hl
    simp [processPsr4Entry, appendPath, hc, hl, lookupA_insertA_self]

/-- Witness for C6: appending to an existing list for the App key, and
creating the list on a fresh state. -/
theorem psr4_paths_accumulation_witness :
    ("App\\").data.head? = some 'A' ∧
    lookupA stPreApp.psr4 "App\\" = some ["p1/src/"] ∧
    (processPsr4Entry "p2" stPreApp ("App\\", "lib/")).map
        (fun st' => lookupA st'.psr4 "App\\") =
      some (some (["p1/src/"] ++ ["p2" ++ "/" ++ "lib/"])) ∧
    lookupA emptyStatic.psr4 "App\\" = none ∧
    (processPsr4Entry "p1" emptyStatic ("App\\", "src/")).map
        (fun st' => lookupA st'.psr4 "App\\") =
      some (some ["p1" ++ "/" ++ "src/"]) :=
  ⟨rfl, rfl,
    psr4_paths_accumulation.1 "p2" stPreApp "App\\" "lib/" 'A' ["p1/src/"] rfl rfl,
    rfl,
    psr4_paths_accumulation.2.1 "p1" emptyStatic "App\\" "src/" 'A' rfl rfl⟩

/-- Combined insert-lookup equation. -/
theorem lookupA_insertA {α : Type} (m : List (String × α)) (k k' : String) (v : α) :
    lookupA (insertA m k v) k' = if k' = k then some v else lookupA m k' := by
  by_cases h : k' = k
  · subst h
    simp [lookupA_insertA_self]
  · simp [h, lookupA_insertA_other m k k' v h]

/-- Unfolding of the two-level lookup at a present first key. -/
theorem lookupA₂_eq_some {α : Type} (M : List (String × List (String × α)))
    (k1 k2 : String) (m2 : List (String × α)) (h : lookupA M k1 = some m2) :
    lookupA₂ M k1 k2 = lookupA m2 k2 := by
  simp [lookupA₂, h]

/-- Unfolding of the two-level lookup at an absent first key. -/
theorem lookupA₂_eq_none {α : Type} (M : List (String × List (String × α)))
    (k1 k2 : String) (h : lookupA M k1 = none) : lookupA₂ M k1 k2 = none := by
  simp [lookupA₂, h]

/-- What the length update makes visible to the two-level lookup. -/
theorem lookupA₂_recordLength (L : List (String × List (String × Nat)))
    (flc ns : String) (bs : Nat) (fl ns' : String) :
    lookupA₂ (recordLength L flc ns bs) fl ns' =
      if fl = flc ∧ ns' = ns then some bs else lookupA₂ L fl ns' := by
  unfold recordLength
  cases hm : lookupA L flc with
  | some m =>
    by_cases hfl : fl = flc
    · subst hfl
      rw [lookupA₂_eq_some _ _ _ _ (lookupA_insertA_self L fl (insertA m ns bs)),
        lookupA_insertA]
      by_cases hns : ns' = ns
      · simp [hns]
      · simp [hns, lookupA₂_eq_some L fl ns' m hm]
    · rw [lookupA₂, lookupA_insertA_other L flc fl _ hfl]
      simp [hfl, lookupA₂]
  | none =>
    by_cases hfl : fl = flc
    · subst hfl
      rw [lookupA₂_eq_some _ _ _ _ (lookupA_insertA_self L fl [(ns, bs)])]
      by_cases hns : ns' = ns
      · simp [hns, lookupA]
      · simp [hns, lookupA, Ne.symm hns, lookupA₂_eq_none L fl ns' hm]
    · rw [lookupA₂, lookupA_insertA_other L flc fl _ hfl]
      simp [hfl, lookupA₂]

/-- The empty index satisfies the length invariant. -/
theorem lengthsWF_empty : LengthsWF emptyStatic.psr4Lengths := by
  intro fl ns n h
  simp [emptyStatic, lookupA₂, lookupA] at h

/-- A psr0 step never changes the length index. -/
theorem processPsr0Entry_lengths (pkgName : String) (st st' : StaticIndexes)
    (e : String × String) (h : processPsr0Entry pkgName st e = some st') :
    st'.psr4Lengths = st.psr4Lengths := by
  obtain ⟨ns, path⟩ := e
  simp only [processPsr0Entry] at h
  cases hc : ns.data.head? with
  | none => rw [hc] at h; cases h
  | some c =>
    rw [hc] at h
    injection h with h
    subst h
    rfl

/-- A psr4 step preserves the length invariant: the value it records for
its namespace key is that key's byte length. -/
theorem processPsr4Entry_preserves_wf (pkgName : String) (st st' : StaticIndexes)
    (e : String × String) (hwf : LengthsWF st.psr4Lengths)
    (h : processPsr4Entry pkgName st e = some st') :
    LengthsWF st'.psr4Lengths := by
  obtain ⟨ns, path⟩ := e
  simp only [processPsr4Entry] at h
  cases hc : ns.data.head? with
  | none => rw [hc] at h; cases h
  | some c =>
    rw [hc] at h
    injection h with h
    subst h
    intro fl ns' n hl
    simp only [lookupA₂_recordLength] at hl
    by_cases hx : fl = c.toString ∧ ns' = ns
    · rw [if_pos hx] at hl
      injection hl with hl
      rw [hx.2, ← hl]
    · rw [if_neg hx] at hl
      exact hwf fl ns' n hl

/-- Folding panic-capable steps preserves any property the step
preserves. -/
theorem processEntries_preserves {σ : Type} (P : σ → Prop)
    (f : σ → String × String → Option σ)
    (hf : ∀ st st' e, P st → f st e = some st' → P st') :
    ∀ es st st', P st → processEntries f st es = some st' → P st' := by
  intro es
  induction es with
  | nil =>
    intro st st' hP h
    simp only [processEntries] at h
    cases h
    exact hP
  | cons e rest ih =>
    intro st st' hP h
    simp only [processEntries] at h
    cases he : f st e with
    | none => rw [he] at h; cases h
    | some st2 =>
      rw [he] at h
      exact ih st2 st' (hf st st2 e hP he) h

/-- The files step never changes the length index. -/
theorem processFiles_lengths (hash : String → Nat) (pkgName : String)
    (st : StaticIndexes) (fls : Option (List String)) :
    (processFiles hash pkgName st fls).psr4Lengths = st.psr4Lengths := by
  cases fls <;> rfl

/-- One package of the static builder preserves the length invariant. -/
theorem processPackage_preserves_wf (hash : String → Nat)
    (st st' : StaticIndexes) (p : ComposerPackage)
    (hwf : LengthsWF st.psr4Lengths)
    (h : processPackage hash st p = some st') : LengthsWF st'.psr4Lengths := by
  cases hal : p.autoload with
  | none =>
    simp only [processPackage, hal] at h
    cases h
    exact hwf
  | some al =>
    simp only [processPackage, hal] at h
    cases hps : processEntries (processPsr0Entry p.name)
        (processFiles hash p.name st al.files) (al.psr0.getD []) with
    | none => simp [hps] at h
    | some st2 =>
      simp only [hps] at h
      have hst2 : LengthsWF st2.psr4Lengths := by
        have hkeep := processEntries_preserves
          (fun s => s.psr4Lengths = st.psr4Lengths) (processPsr0Entry p.name)
          (fun s s' e hP he => (processPsr0Entry_lengths p.name s s' e he).trans hP)
          (al.psr0.getD []) (processFiles hash p.name st al.files) st2
          (processFiles_lengths hash p.name st al.files) hps
        rw [hkeep]
        exact hwf
      exact processEntries_preserves (fun s => LengthsWF s.psr4Lengths)
        (processPsr4Entry p.name)
        (fun s s' e hP he => processPsr4Entry_preserves_wf p.name s s' e hP he)
        (al.psr4.getD []) st2 st' hst2 h

/-- The package loop of the static builder preserves the length
invariant. -/
theorem processPackages_preserves_wf (hash : String → Nat) :
    ∀ pkgs st st', LengthsWF st.psr4Lengths →
      processPackages hash st pkgs = some st' → LengthsWF st'.psr4Lengths := by
  intro pkgs
  induction pkgs with
  | nil =>
    intro st st' hwf h
    simp only [processPackages] at h
    cases h
    exact hwf
  | cons p rest ih =>
    intro st st' hwf h
    simp only [processPackages] at h
    cases hp : processPackage hash st p with
    | none => rw [hp] at h; cases h
    | some st2 =>
      rw [hp] at h
      exact ih st2 st' (processPackage_preserves_wf hash st st2 p hwf hp) h

/-- C7 (amended): a psr4 entry records, under the bucket of the key's
first character, the key's UTF-8 byte length (the Rust len method), and
every value ever present in the length index equals the byte length of its
key, so re-recording an already declared key overwrites with the same
value. -/
theorem psr4_prefix_length_records_bytes :
    (∀ pkgName st ns path c, ns.data.head? = some c →
        (processPsr4Entry pkgName st (ns, path)).map
            (fun st' => lookupA₂ st'.psr4Lengths c.toString ns) =
          some (some ns.utf8ByteSize)) ∧
    (∀ hash lock idx, generate_composer_static hash lock = some idx →
        LengthsWF idx.psr4Lengths) := by
  constructor
  · intro pkgName st ns path c hc
    simp [processPsr4Entry, hc, lookupA₂_recordLength]
  · intro hash lock idx h
    exact processPackages_preserves_wf hash lock.packages emptyStatic idx
      lengthsWF_empty h

/-- Witness for the amended C7 theorem: one concrete entry and the full
builder run at the two-package App manifest. -/
theorem psr4_prefix_length_records_bytes_witness :
    ("App\\").data.head? = some 'A' ∧
    (processPsr4Entry "p1" emptyStatic ("App\\", "src/")).map
        (fun st' => lookupA₂ st'.psr4Lengths (Char.toString 'A') "App\\") =
      some (some ("App\\").utf8ByteSize) ∧
    generate_composer_static (fun _ => 0) lockTwoApp =
      some ((generate_composer_static (fun _ => 0) lockTwoApp).getD emptyStatic) ∧
    LengthsWF ((generate_composer_static (fun _ => 0) lockTwoApp).getD
      emptyStatic).psr4Lengths :=
  ⟨rfl,
    psr4_prefix_length_records_bytes.1 "p1" emptyStatic "App\\" "src/" 'A' rfl,
    rfl,
    psr4_prefix_length_records_bytes.2 (fun _ => 0) lockTwoApp
      ((generate_composer_static (fun _ => 0) lockTwoApp).getD emptyStatic) rfl⟩

/-- C7 counterexample to the claim as stated: for a namespace key with a
two-byte first character, the recorded value is the byte length 3, not the
character length 2. -/
theorem psr4_prefix_length_counterexample :
    (generate_composer_static (fun _ => 0) lockUmlaut).map
        (fun st => lookupA₂ st.psr4Lengths "Ä" "Ä\\") = some (some 3) ∧
    ("Ä\\").length = 2 ∧ ((3 : Nat) == 2) = false :=
  ⟨rfl, rfl, rfl⟩

/-- A psr0 step panics on the empty namespace key, whatever the state. -/
theorem processPsr0Entry_empty (pkgName : String) (st : StaticIndexes)
    (path : String) : processPsr0Entry pkgName st ("", path) = none := rfl

/-- A psr4 step panics on the empty namespace key, whatever the state. -/
theorem processPsr4Entry_empty (pkgName : String) (st : StaticIndexes)
    (path : String) : processPsr4Entry pkgName st ("", path) = none := rfl

/-- Folding a step that always panics on some listed entry panics. -/
theorem processEntries_none_of_mem {σ : Type}
    (f : σ → String × String → Option σ) (e : String × String)
    (hf : ∀ st, f st e = none) :
    ∀ es st, e ∈ es → processEntries f st es = none := by
  intro es
  induction es with
  | nil => intro st h; cases h
  | cons e0 rest ih =>
    intro st h
    simp only [processEntries]
    cases h0 : f st e0 with
    | none => rfl
    | some st2 =>
      rcases List.mem_cons.mp h with he | he
      · subst he
        rw [hf st] at h0
        cases h0
      · exact ih st2 he

/-- Folding a step that succeeds on every listed entry succeeds. -/
theorem processEntries_isSome {σ : Type}
    (f : σ → String × String → Option σ) :
    ∀ es, (∀ st e, e ∈ es → (f st e).isSome = true) →
      ∀ st, (processEntries f st es).isSome = true := by
  intro es
  induction es with
  | nil => intro _ st; rfl
  | cons e0 rest ih =>
    intro h st
    simp only [processEntries]
    cases h0 : f st e0 with
    | none =>
      have hx := h st e0 (List.mem_cons_self e0 rest)
      rw [h0] at hx
      cases hx
    | some st2 =>
      exact ih (fun st e he => h st e (List.mem_cons_of_mem e0 he)) st2

/-- A psr0 step succeeds on a non-empty namespace key. -/
theorem processPsr0Entry_isSome (pkgName : String) (st : StaticIndexes)
    (e : String × String) (h : e.1 ≠ "") :
    (processPsr0Entry pkgName st e).isSome = true := by
  obtain ⟨c, hc⟩ := string_data_head_some e.1 h
  simp [processPsr0Entry, hc]

/-- A psr4 step succeeds on a non-empty namespace key. -/
theorem processPsr4Entry_isSome (pkgName : String) (st : StaticIndexes)
    (e : String × String) (h : e.1 ≠ "") :
    (processPsr4Entry pkgName st e).isSome = true := by
  obtain ⟨c, hc⟩ := string_data_head_some e.1 h
  simp [processPsr4Entry, hc]

/-- A package holding an empty psr0 or psr4 namespace key makes the whole
package step panic, whatever the accumulated state. -/
theorem processPackage_none_of_empty_key (hash : String → Nat)
    (st : StaticIndexes) (p : ComposerPackage) (al : ComposerAutoload)
    (hal : p.autoload = some al)
    (hbad : (∃ path, ("", path) ∈ al.psr0.getD []) ∨
      (∃ path, ("", path) ∈ al.psr4.getD [])) :
    processPackage hash st p = none := by
  simp only [processPackage, hal]
  rcases hbad with ⟨path, hmem⟩ | ⟨path, hmem⟩
  · rw [processEntries_none_of_mem (processPsr0Entry p.name) ("", path)
      (fun st0 => processPsr0Entry_empty p.name st0 path) _ _ hmem]
  · cases hps : processEntries (processPsr0Entry p.name)
        (processFiles hash p.name st al.files) (al.psr0.getD []) with
    | none => rfl
    | some st2 =>
      exact processEntries_none_of_mem (processPsr4Entry p.name) ("", path)
        (fun st0 => processPsr4Entry_empty p.name st0 path) _ st2 hmem

/-- A package all of whose psr0 and psr4 namespace keys are non-empty
completes, whatever the accumulated state. -/
theorem processPackage_isSome (hash : String → Nat) (st : StaticIndexes)
    (p : ComposerPackage)
    (h : ∀ al, p.autoload = some al →
      (∀ e ∈ al.psr0.getD [], e.1 ≠ "") ∧ (∀ e ∈ al.psr4.getD [], e.1 ≠ "")) :
    (processPackage hash st p).isSome = true := by
  cases hal : p.autoload with
  | none => simp [processPackage, hal]
  | some al =>
    obtain ⟨h0, h4⟩ := h al hal
    simp only [processPackage, hal]
    cases hps : processEntries (processPsr0Entry p.name)
        (processFiles hash p.name st al.files) (al.psr0.getD []) with
    | none =>
      have hx := processEntries_isSome (processPsr0Entry p.name)
        (al.psr0.getD [])
        (fun st0 e he => processPsr0Entry_isSome p.name st0 e (h0 e he))
        (processFiles hash p.name st al.files)
      rw [hps] at hx
      cases hx
    | some st2 =>
      exact processEntries_isSome (processPsr4Entry p.name) (al.psr4.getD [])
        (fun st0 e he => processPsr4Entry_isSome p.name st0 e (h4 e he)) st2

/-- The package loop panics when some package step always panics. -/
theorem processPackages_none_of_mem (hash : String → Nat)
    (p : ComposerPackage) (hbad : ∀ st, processPackage hash st p = none) :
    ∀ pkgs st, p ∈ pkgs → processPackages hash st pkgs = none := by
  intro pkgs
  induction pkgs with
  | nil => intro st h; cases h
  | cons q rest ih =>
    intro st h
    simp only [processPackages]
    cases hq : processPackage hash st q with
    | none => rfl
    | some st2 =>
      rcases List.mem_cons.mp h with he | he
      · subst he
        rw [hbad st] at hq
        cases hq
      · exact ih st2 he

/-- The package loop completes when every package step completes. -/
theorem processPackages_isSome (hash : String → Nat) :
    ∀ pkgs, (∀ p ∈ pkgs, ∀ al, p.autoload = some al →
        (∀ e ∈ al.psr0.getD [], e.1 ≠ "") ∧ (∀ e ∈ al.psr4.getD [], e.1 ≠ "")) →
      ∀ st, (processPackages hash st pkgs).isSome = true := by
  intro pkgs
  induction pkgs with
  | nil => intro _ st; rfl
  | cons q rest ih =>
    intro h st
    simp only [processPackages]
    cases hq : processPackage hash st q with
    | none =>
      have hx := processPackage_isSome hash st q
        (h q (List.mem_cons_self q rest))
      rw [hq] at hx
      cases hx
    | some st2 =>
      exact ih (fun p hp => h p (List.mem_cons_of_mem q hp)) st2

/-- C10: the static autoload builder is total exactly on manifests whose
psr0 and psr4 namespace keys are all non-empty: an empty key makes the
builder panic when taking the key's first character, and when every key is
non-empty that panic branch is unreachable and the builder completes. -/
theorem autoload_builder_empty_key_totality :
    (∀ hash lock p al, p ∈ lock.packages → p.autoload = some al →
        ((∃ path, ("", path) ∈ al.psr0.getD []) ∨
         (∃ path, ("", path) ∈ al.psr4.getD [])) →
        generate_composer_static hash lock = none) ∧
    (∀ hash lock,
        (∀ p ∈ lock.packages, ∀ al, p.autoload = some al →
          (∀ e ∈ al.psr0.getD [], e.1 ≠ "") ∧ (∀ e ∈ al.psr4.getD [], e.1 ≠ "")) →
        (generate_composer_static hash lock).isSome = true) := by
  constructor
  · intro hash lock p al hp hal hbad
    exact processPackages_none_of_mem hash p
      (fun st => processPackage_none_of_empty_key hash st p al hal hbad)
      lock.packages emptyStatic hp
  · intro hash lock h
    exact processPackages_isSome hash lock.packages h emptyStatic

/-- Witness for C10 at concrete manifests: the lock with an empty psr4
key panics, the two-package App lock completes. -/
theorem autoload_builder_empty_key_totality_witness :
    pkgPsr4 "p1" "" "src/" ∈ lockEmptyNs.packages ∧
    generate_composer_static (fun _ => 0) lockEmptyNs = none ∧
    (generate_composer_static (fun _ => 0) lockTwoApp).isSome = true :=
  ⟨by simp [lockEmptyNs],
    autoload_builder_empty_key_totality.1 (fun _ => 0) lockEmptyNs
      (pkgPsr4 "p1" "" "src/")
      { files := none, psr0 := none, psr4 := some [("", "src/")] }
      (by simp [lockEmptyNs]) rfl
      (Or.inr ⟨"src/", by simp⟩),
    autoload_builder_empty_key_totality.2 (fun _ => 0) lockTwoApp (by
      intro p hp al hal
      simp [lockTwoApp, pkgPsr4] at hp
      rcases hp with rfl | rfl <;>
        · simp [pkgPsr4] at hal
          subst hal
          refine ⟨?_, ?_⟩
          · intro e he
            simp at he
          · intro e he
            simp at he
            subst he
            decide)⟩

/-- C9: the clear-cache branch of main only prints the clearing message;
no directory removal effect is emitted, so the cache root is not deleted
(the arguments are ignored by that branch, so the concrete directories
below are representative). -/
theorem clear_cache_deletes_nothing :
    mainDispatch (some CliCommand.clearCache) "proj" "cache" =
        [MainEffect.printLine "Clearing cache"] ∧
      (mainDispatch (some CliCommand.clearCache) "proj" "cache").all
        (fun e =>
          match e with
          | MainEffect.removeDirAll _ => false
          | _ => true) = true :=
  ⟨rfl, rfl⟩

end ComposerRs
